import Mathlib

/-!
Verification development for the chat-store action layer of `pro-chat`
(`src/ProChat/store/action.ts`), together with the regenerate handler of the
message-list component.  The stateful TypeScript store is shallowly embedded:
the zustand store becomes an explicit `ChatState` record, `AbortController`
allocation becomes a handle counter (an aborted handle is recorded in
`abortedHandles`), and the streamed response consumed by `fetchSSE` becomes an
explicit list of decoded chunks followed by an optional terminal error.
-/

/-- Message roles, from `ChatMessage['role']`. -/
inductive Role where
  | user
  | assistant
  | system
  | function
  deriving DecidableEq, Repr

/-- A chat message (`ChatMessage` in `types/message`): identity is by `id`;
`content` and `extra` are mutated during streaming; `error` holds the failure
descriptor of a failed generation (abstracted here as a string). -/
structure ChatMessage where
  id : String
  role : Role
  content : String
  parentId : Option String
  error : Option String
  extra : List (String × String)
  deriving DecidableEq, Repr

/-- Modelled from the spec: the loading sentinel (`LOADING_FLAT` in
`const/message`, not under the provided sources) — a fixed placeholder value
marking a message as still being generated. Its concrete value is irrelevant
to every property below. -/
def LOADING_FLAT : String := "..."

/-- Modelled from the spec: the built-in id generator (`nanoid` from
`utils/uuid`, not under the provided sources) produces a fresh
collision-resistant identifier; modelled as a counter-indexed string (the
counter is encoded in the length so distinct counters give distinct ids). -/
def nanoid (n : Nat) : String := "nanoid-" ++ String.mk (List.replicate n 'x')

/-- A mutation command (`MessageDispatch`). `updateMessage` in the source takes
an arbitrary field key; the two keys the actions use (`content`, `error`) are
split into separate constructors.  Update ids are `Option String` because the
dispatch sites may pass an undefined id (e.g. `chatLoadingId`). -/
inductive MessageDispatch where
  | addMessage (id : String) (role : Role) (message : String) (parentId : Option String)
  | deleteMessage (id : String)
  | updateMessageContent (id : Option String) (value : String)
  | updateMessageError (id : Option String) (value : String)
  | updateMessageExtra (id : Option String) (key : String) (value : String)
  | resetMessages

/-- Merge one key into an `extra` mapping (replace if present, append if not). -/
def upsertExtra (extra : List (String × String)) (k v : String) : List (String × String) :=
  if extra.any (fun p => p.1 == k) then
    extra.map (fun p => if p.1 == k then (k, v) else p)
  else
    extra ++ [(k, v)]

/-- Modelled from the spec: the message reducer (`store/reducers/message`, not
under the provided sources), per spec §4.1: add appends, delete removes by id,
updates replace the named field on the matching message and degrade to the
identity when no message matches, reset clears the conversation. -/
def messagesReducer (chats : List ChatMessage) : MessageDispatch → List ChatMessage
  | .addMessage id role message parentId =>
      chats ++ [{ id := id, role := role, content := message, parentId := parentId,
                  error := none, extra := [] }]
  | .deleteMessage id =>
      chats.filter (fun m => m.id != id)
  | .updateMessageContent id value =>
      chats.map (fun m => if id = some m.id then { m with content := value } else m)
  | .updateMessageError id value =>
      chats.map (fun m => if id = some m.id then { m with error := some value } else m)
  | .updateMessageExtra id key value =>
      chats.map (fun m => if id = some m.id then { m with extra := upsertExtra m.extra key value } else m)
  | .resetMessages => []

/-- The store state: the conversation plus the generation-session fields.
`AbortController` values are modelled as handles drawn from `nextHandle`;
calling `.abort()` on a handle appends it to `abortedHandles`.  `nextNano`
feeds `nanoid`, `genMessageId` is the optional id-generation override, and
`model` stands for `config.model`. -/
structure ChatState where
  chats : List ChatMessage
  chatLoadingId : Option String
  abortController : Option Nat
  nextHandle : Nat
  abortedHandles : List Nat
  nextNano : Nat
  genMessageId : Option (List ChatMessage → String → String)
  model : String

/-- `dispatchMessage`: route a command through the reducer into the store. -/
def dispatchMessage (s : ChatState) (payload : MessageDispatch) : ChatState :=
  { s with chats := messagesReducer s.chats payload }

/-- `toggleChatLoading` (action.ts:344-352): on `loading = true` allocate a
fresh `AbortController` and set it with the loading id; on `false` clear both. -/
def toggleChatLoading (s : ChatState) (loading : Bool) (id : Option String) : ChatState :=
  if loading then
    { s with abortController := some s.nextHandle, chatLoadingId := id,
             nextHandle := s.nextHandle + 1 }
  else
    { s with abortController := none, chatLoadingId := none }

/-- Modelled from the spec: `chatSelectors.currentChats` (store selectors, not
under the provided sources) returns the conversation's ordered messages. -/
def currentChats (s : ChatState) : List ChatMessage := s.chats

/-- `getMessageId` (action.ts:377-381): the override when configured, otherwise
`nanoid()`; returns the id together with the nanoid counter after the call. -/
def getMessageId (s : ChatState) (messages : List ChatMessage) (parentId : String) :
    String × Nat :=
  match s.genMessageId with
  | some g => (g messages parentId, s.nextNano)
  | none => (nanoid s.nextNano, s.nextNano + 1)

/-- The streamed response as seen by `generateMessage`: decoded chunks in
arrival order — each paired with whether the cancellation signal had already
fired when the chunk was handled — then an optional terminal error delivered
to `onErrorHandle` (spec §4.2: the consumer surfaces transport and decode
failures through the single terminal error channel). -/
structure StreamEvents where
  chunks : List (String × Bool)
  err : Option String

/-- The `onMessageHandle` loop (action.ts:210-230): `output += text`, then the
accumulated value is dispatched only when the signal has not yet fired.  The
result is the sequence of `content` values dispatched, in dispatch order. -/
def contentTrace (acc : String) : List (String × Bool) → List String
  | [] => []
  | c :: rest =>
      if c.2 then contentTrace (acc ++ c.1) rest
      else (acc ++ c.1) :: contentTrace (acc ++ c.1) rest

/-- The final accumulated `output` over a chunk list (aborted or not, the
source appends every decoded chunk to `output`). -/
def accumulateOut (acc : String) (chunks : List (String × Bool)) : String :=
  chunks.foldl (fun o c => o ++ c.1) acc

/-- Apply the dispatched content updates for the generating message, in
dispatch order. -/
def applyContentUpdates (chats : List ChatMessage) (aid : String) (vs : List String) :
    List ChatMessage :=
  vs.foldl (fun cs v => messagesReducer cs (.updateMessageContent (some aid) v)) chats

/-- The synchronous start of `generateMessage` (action.ts:154-161): route
through `toggleChatLoading(true, assistantId)`. -/
def generateMessageStart (s : ChatState) (assistantId : String) : ChatState :=
  toggleChatLoading s true (some assistantId)

/-- The streaming remainder of `generateMessage` (action.ts:203-235): apply the
dispatched content updates, then `onErrorHandle` writes the error descriptor
on the assistant message (action.ts:207-209), then
`toggleChatLoading(false)`. -/
def generateMessageFinish (s : ChatState) (assistantId : String) (ev : StreamEvents) :
    ChatState :=
  let s1 := { s with chats := applyContentUpdates s.chats assistantId (contentTrace "" ev.chunks) }
  let s2 :=
    match ev.err with
    | some e => dispatchMessage s1 (.updateMessageError (some assistantId) e)
    | none => s1
  toggleChatLoading s2 false none

/-- `generateMessage` as a whole (the function-call detection flag returned to
the caller is not modelled: no property below concerns it, and it does not
touch the store). -/
def generateMessage (s : ChatState) (assistantId : String) (ev : StreamEvents) : ChatState :=
  generateMessageFinish (generateMessageStart s assistantId) assistantId ev

/-- The template-substitution step of context preprocessing
(action.ts:171-185): the compiled template is abstracted as
`compiler : String → Option String`, `none` standing for a thrown evaluation
error, which the source catches and answers with the unmodified message. -/
def compilerMessages (compiler : String → Option String) (msgs : List ChatMessage) :
    List ChatMessage :=
  msgs.map fun m =>
    if m.role = Role.user then
      match compiler m.content with
      | some c => { m with content := c }
      | none => m
    else m

/-- `postMessages` (action.ts:186): the template step is skipped entirely when
no input template is configured. -/
def postMessages (inputTemplate : Option (String → Option String))
    (sliced : List ChatMessage) : List ChatMessage :=
  match inputTemplate with
  | none => sliced
  | some compiler => compilerMessages compiler sliced

/-- `realFetchAIResponse` up to the point generation starts
(action.ts:240-262): generate the placeholder id, append the assistant
placeholder holding the loading sentinel with the user message as parent, tag
its `fromModel` extra, and enter `generateMessage`'s start.  Returns the state
at generation start together with the placeholder id. -/
def realFetchAIResponseStart (s : ChatState) (messages : List ChatMessage)
    (userMessageId : String) : ChatState × String :=
  let p := getMessageId s messages userMessageId
  let s1 := { s with nextNano := p.2 }
  let s2 := dispatchMessage s1 (.addMessage p.1 Role.assistant LOADING_FLAT (some userMessageId))
  let s3 := dispatchMessage s2 (.updateMessageExtra (some p.1) "fromModel" s.model)
  (generateMessageStart s3 p.1, p.1)

/-- `realFetchAIResponse` in full, the stream drained. -/
def realFetchAIResponse (s : ChatState) (messages : List ChatMessage)
    (userMessageId : String) (ev : StreamEvents) : ChatState :=
  let p := realFetchAIResponseStart s messages userMessageId
  generateMessageFinish p.1 p.2 ev

/-- `sendMessage` (action.ts:305-321) up to generation start: no-op (`none`)
on empty text; otherwise append a user message with a fresh `nanoid`, read the
current messages back, and hand them to `realFetchAIResponse` with the user
message as causal parent. -/
def sendMessageCore (s : ChatState) (text : String) : Option (ChatState × String) :=
  if text = "" then none
  else
    let userId := nanoid s.nextNano
    let s1 := dispatchMessage { s with nextNano := s.nextNano + 1 }
      (.addMessage userId Role.user text none)
    some (realFetchAIResponseStart s1 (currentChats s1) userId)

/-- The store state when the generation triggered by `sendMessage` starts. -/
def sendMessageStart (s : ChatState) (text : String) : ChatState :=
  match sendMessageCore s text with
  | none => s
  | some p => p.1

/-- `sendMessage` in full, the stream drained. -/
def sendMessage (s : ChatState) (text : String) (ev : StreamEvents) : ChatState :=
  match sendMessageCore s text with
  | none => s
  | some p => generateMessageFinish p.1 p.2 ev

/-- The context-window reconstruction of `resendMessage` (action.ts:267-294):
locate the target by id (`none` when absent); `user`/`function` take the
inclusive slice; `assistant` resolves its `parentId` and takes the slice up to
the parent's index + 1, falling back to the inclusive slice when the
back-reference does not resolve (an absent `parentId` makes the source's
`findIndex` against `undefined` answer -1, modelled as `none`); a `system`
target leaves the context empty, and an empty context aborts the resend. -/
def resendContext (chats : List ChatMessage) (messageId : String) :
    Option (List ChatMessage) :=
  match chats.findIdx? (fun c => c.id == messageId) with
  | none => none
  | some currentIndex =>
    match chats[currentIndex]? with
    | none => none
    | some currentMessage =>
      let contextMessages : List ChatMessage :=
        match currentMessage.role with
        | Role.user | Role.function => chats.take (currentIndex + 1)
        | Role.assistant =>
            let userIndex : Option Nat :=
              match currentMessage.parentId with
              | some uid => chats.findIdx? (fun c => c.id == uid)
              | none => none
            match userIndex with
            | none => chats.take (currentIndex + 1)
            | some j => chats.take (j + 1)
        | Role.system => []
      if contextMessages.length = 0 then none else some contextMessages

/-- The remainder of `resendMessage` (action.ts:294-302): the most recent
`user` message of the context becomes the causal parent; no user message means
no-op. -/
def resendPlan (chats : List ChatMessage) (messageId : String) :
    Option (List ChatMessage × String) :=
  match resendContext chats messageId with
  | none => none
  | some ctx =>
    match (ctx.filter (fun m => m.role == Role.user)).getLast? with
    | none => none
    | some latest => some (ctx, latest.id)

/-- `stopGenerateMessage` (action.ts:323-343): when the conversation's last
message still holds the loading sentinel, dispatch a content-clearing update
targeting `chatLoadingId`; then, if a cancellation handle is live, abort it
and clear the session through `toggleChatLoading(false)`. -/
def stopGenerateMessage (s : ChatState) : ChatState :=
  let s1 :=
    match s.chats.getLast? with
    | some lastChat =>
        if lastChat.content = LOADING_FLAT then
          dispatchMessage s (.updateMessageContent s.chatLoadingId "")
        else s
    | none => s
  match s1.abortController with
  | none => s1
  | some h =>
      toggleChatLoading { s1 with abortedHandles := s1.abortedHandles ++ [h] } false none

/-- The `regenerate` branch of the message list's `onActionsClick`
(List component, `part_000`:47-63) up to the point the retry generation
starts.  `resendMessage(id)` is invoked without `await`: its synchronous
prefix computes the context from the current conversation, then suspends at
`await getMessageId`, at which point `if (error) deleteMessage(id)` runs; the
placeholder append and the generation therefore observe the conversation with
the errored message already deleted, while the context was computed before
the deletion.  The clicked item's `error` prop equals the target message's
`error` field. -/
def regenerateStart (s : ChatState) (messageId : String) : ChatState :=
  let hasError :=
    match s.chats.find? (fun c => c.id == messageId) with
    | some m => m.error.isSome
    | none => false
  match resendPlan s.chats messageId with
  | none => if hasError then dispatchMessage s (.deleteMessage messageId) else s
  | some plan =>
      let s1 := if hasError then dispatchMessage s (.deleteMessage messageId) else s
      (realFetchAIResponseStart s1 plan.1 plan.2).1

/-! Concrete fixtures used by counterexamples and witnesses. -/

/-- A user message fixture. -/
def u1msg : ChatMessage :=
  { id := "u1", role := Role.user, content := "hi", parentId := none, error := none, extra := [] }

/-- An assistant reply fixture whose parent is `u1msg`. -/
def a1msg : ChatMessage :=
  { id := "a1", role := Role.assistant, content := "reply", parentId := some "u1",
    error := none, extra := [] }

/-- The assistant placeholder still holding the loading sentinel. -/
def a1load : ChatMessage := { a1msg with content := LOADING_FLAT }

/-- The assistant reply after a failed generation. -/
def a1errmsg : ChatMessage := { a1msg with error := some "transport error" }

/-- An idle store. -/
def baseState : ChatState :=
  { chats := [], chatLoadingId := none, abortController := none, nextHandle := 0,
    abortedHandles := [], nextNano := 0, genMessageId := none, model := "gpt-3.5-turbo" }

/-- A store with a generation session active on handle 0 for message `a1`. -/
def activeState : ChatState :=
  { baseState with
      chats := [u1msg, a1load]
      chatLoadingId := some "a1"
      abortController := some 0
      nextHandle := 1 }

/-- A conversation whose assistant reply errored, no session active. -/
def erroredState : ChatState := { baseState with chats := [u1msg, a1errmsg] }

/-- A conversation with a healthy assistant reply, no session active. -/
def healthyState : ChatState := { baseState with chats := [u1msg, a1msg] }

/-- A store configured with an id-generation override. -/
def overrideState : ChatState :=
  { baseState with genMessageId := some (fun _ _ => "custom-id") }

/-! Helper lemmas. -/

theorem nanoid_injective {a b : Nat} (h : nanoid a = nanoid b) : a = b := by
  have hl := congrArg String.length h
  simpa [nanoid, String.length_append, String.length] using hl

theorem nanoid_ne {a b : Nat} (h : a ≠ b) : nanoid a ≠ nanoid b :=
  fun hc => h (nanoid_injective hc)

theorem reducer_update_content_none (chats : List ChatMessage) (v : String) :
    messagesReducer chats (.updateMessageContent none v) = chats := by
  simp [messagesReducer]

theorem reducer_update_content_decomp (pre post : List ChatMessage) (am : ChatMessage)
    (aid : String) (v : String) (ham : am.id = aid)
    (hpre : ∀ m ∈ pre, m.id ≠ aid) (hpost : ∀ m ∈ post, m.id ≠ aid) :
    messagesReducer (pre ++ am :: post) (.updateMessageContent (some aid) v) =
      pre ++ { am with content := v } :: post := by
  simp only [messagesReducer, List.map_append, List.map_cons]
  have h1 : pre.map (fun m => if some aid = some m.id then { m with content := v } else m) = pre := by
    refine (List.map_congr_left ?_).trans (List.map_id pre)
    intro m hm
    rw [if_neg (fun hh : some aid = some m.id => hpre m hm (Option.some.inj hh).symm)]
    rfl
  have h3 : post.map (fun m => if some aid = some m.id then { m with content := v } else m) = post := by
    refine (List.map_congr_left ?_).trans (List.map_id post)
    intro m hm
    rw [if_neg (fun hh : some aid = some m.id => hpost m hm (Option.some.inj hh).symm)]
    rfl
  rw [h1, h3, if_pos (by rw [ham])]

theorem reducer_update_error_decomp (pre post : List ChatMessage) (am : ChatMessage)
    (aid : String) (v : String) (ham : am.id = aid)
    (hpre : ∀ m ∈ pre, m.id ≠ aid) (hpost : ∀ m ∈ post, m.id ≠ aid) :
    messagesReducer (pre ++ am :: post) (.updateMessageError (some aid) v) =
      pre ++ { am with error := some v } :: post := by
  simp only [messagesReducer, List.map_append, List.map_cons]
  have h1 : pre.map (fun m => if some aid = some m.id then { m with error := some v } else m) = pre := by
    refine (List.map_congr_left ?_).trans (List.map_id pre)
    intro m hm
    rw [if_neg (fun hh : some aid = some m.id => hpre m hm (Option.some.inj hh).symm)]
    rfl
  have h3 : post.map (fun m => if some aid = some m.id then { m with error := some v } else m) = post := by
    refine (List.map_congr_left ?_).trans (List.map_id post)
    intro m hm
    rw [if_neg (fun hh : some aid = some m.id => hpost m hm (Option.some.inj hh).symm)]
    rfl
  rw [h1, h3, if_pos (by rw [ham])]

theorem applyContentUpdates_decomp (vs : List String) :
    ∀ (pre post : List ChatMessage) (am : ChatMessage) (aid : String), am.id = aid →
    (∀ m ∈ pre, m.id ≠ aid) → (∀ m ∈ post, m.id ≠ aid) →
    applyContentUpdates (pre ++ am :: post) aid vs =
      pre ++ { am with content := vs.getLastD am.content } :: post := by
  induction vs with
  | nil => intro pre post am aid ham hpre hpost; rfl
  | cons v vs ih =>
    intro pre post am aid ham hpre hpost
    simp only [applyContentUpdates, List.foldl_cons]
    rw [show (messagesReducer (pre ++ am :: post) (.updateMessageContent (some aid) v)) =
        pre ++ { am with content := v } :: post from
      reducer_update_content_decomp pre post am aid v ham hpre hpost]
    have hres := ih pre post { am with content := v } aid ham hpre hpost
    simp only [applyContentUpdates] at hres
    rw [hres, List.getLastD_cons]

theorem contentTrace_mem_prefix (chunks : List (String × Bool)) :
    ∀ acc x, x ∈ contentTrace acc chunks → ∃ t, acc ++ t = x := by
  induction chunks with
  | nil => intro acc x hx; simp [contentTrace] at hx
  | cons c rest ih =>
    intro acc x hx
    simp only [contentTrace] at hx
    by_cases hc : c.2 = true
    · rw [if_pos hc] at hx
      obtain ⟨t, ht⟩ := ih (acc ++ c.1) x hx
      exact ⟨c.1 ++ t, by rw [← ht, String.append_assoc]⟩
    · rw [if_neg hc] at hx
      rcases List.mem_cons.mp hx with hx | hx
      · exact ⟨c.1, hx.symm⟩
      · obtain ⟨t, ht⟩ := ih (acc ++ c.1) x hx
        exact ⟨c.1 ++ t, by rw [← ht, String.append_assoc]⟩

theorem contentTrace_pairwise (chunks : List (String × Bool)) :
    ∀ acc, List.Pairwise (fun a b => ∃ t, a ++ t = b) (contentTrace acc chunks) := by
  induction chunks with
  | nil => intro acc; simp [contentTrace]
  | cons c rest ih =>
    intro acc
    simp only [contentTrace]
    by_cases hc : c.2 = true
    · rw [if_pos hc]; exact ih (acc ++ c.1)
    · rw [if_neg hc]
      exact List.Pairwise.cons
        (fun x hx => contentTrace_mem_prefix rest (acc ++ c.1) x hx) (ih (acc ++ c.1))

theorem contentTrace_all_aborted (chunks : List (String × Bool)) :
    ∀ acc, (∀ c ∈ chunks, c.2 = true) → contentTrace acc chunks = [] := by
  induction chunks with
  | nil => intro acc _; rfl
  | cons c rest ih =>
    intro acc h
    have hc : c.2 = true := h c (by simp)
    simp only [contentTrace]
    rw [if_pos hc]
    exact ih (acc ++ c.1) (fun x hx => h x (by simp [hx]))

/-- C1 counterexample: in the store `activeState` a previous generation session
is active (cancellation handle 0, `loadingId = "a1"`).  Starting a new
generation (`generateMessage` routes through `toggleChatLoading(true)`)
installs a fresh handle and the new `loadingId`, yet the previous handle 0 is
never aborted — it does not appear in the aborted-handle log even once,
refuting "the previous session's cancellation handle is aborted (terminated)
exactly once before the new session's handle and loadingId are set". -/
theorem generateMessage_start_no_abort_cex :
    (generateMessageStart activeState "a2").chatLoadingId = some "a2" ∧
    (generateMessageStart activeState "a2").abortController = some 1 ∧
    (generateMessageStart activeState "a2").abortedHandles = [] ∧
    (generateMessageStart activeState "a2").abortedHandles.count 0 ≠ 1 :=
  ⟨rfl, rfl, rfl, by decide⟩

/-- C1 (amended): starting a generation while a previous session is active
replaces the previous session's cancellation handle and `loadingId` with a
fresh handle and the new id — the previous handle is dropped without ever
being aborted (the aborted-handle log is unchanged), and the store holds at
most one handle at a time. -/
theorem toggleChatLoading_replaces_without_abort (s : ChatState) (aid : String) (h : Nat)
    (hactive : s.abortController = some h) (hlt : h < s.nextHandle) :
    (generateMessageStart s aid).abortController = some s.nextHandle ∧
    (generateMessageStart s aid).chatLoadingId = some aid ∧
    (generateMessageStart s aid).abortedHandles = s.abortedHandles ∧
    (generateMessageStart s aid).abortController ≠ s.abortController := by
  refine ⟨rfl, rfl, rfl, ?_⟩
  rw [hactive]
  show some s.nextHandle ≠ some h
  simp only [Ne, Option.some.injEq]
  omega

/-- C1 witness: the amended statement evaluated on `activeState`. -/
theorem toggleChatLoading_replaces_without_abort_witness :
    (generateMessageStart activeState "a2").abortController = some activeState.nextHandle ∧
    (generateMessageStart activeState "a2").chatLoadingId = some "a2" ∧
    (generateMessageStart activeState "a2").abortedHandles = activeState.abortedHandles ∧
    (generateMessageStart activeState "a2").abortController ≠ activeState.abortController :=
  toggleChatLoading_replaces_without_abort activeState "a2" 0 rfl (by decide)

/-- C2 counterexample: in `[u1msg, a1msg]` the assistant message `a1` has
`parentId = "u1"`, which resolves to index 0.  The reconstructed context is
`[u1msg]` — it contains the parent user message itself — and is not the slice
strictly before the parent (which would be `[]`), refuting "the context is all
messages strictly before that parent user message (not including it)". -/
theorem resendContext_includes_parent_cex :
    resendContext [u1msg, a1msg] "a1" = some [u1msg] ∧
    resendContext [u1msg, a1msg] "a1" ≠ some [] := by
  constructor
  · decide
  · decide

/-- C2 (amended): `resendMessage`'s context reconstruction, with the target at
index `i`: for a `user`/`function` target the context is the slice up to and
including the target; for an `assistant` target whose `parentId` resolves to
index `j`, the context is the slice up to AND INCLUDING the parent user
message (the parent is its last element); when the `parentId` is absent or
does not resolve, the context falls back to the slice up to and including the
assistant message itself. -/
theorem resendContext_role_cases (chats : List ChatMessage) (mid : String) (i : Nat)
    (m : ChatMessage) (hfind : chats.findIdx? (fun c => c.id == mid) = some i)
    (hget : chats[i]? = some m) :
    ((m.role = Role.user ∨ m.role = Role.function) →
        resendContext chats mid = some (chats.take (i + 1))) ∧
    (∀ pid j p, m.role = Role.assistant → m.parentId = some pid →
        chats.findIdx? (fun c => c.id == pid) = some j → chats[j]? = some p →
        resendContext chats mid = some (chats.take (j + 1)) ∧
        (chats.take (j + 1)).getLast? = some p) ∧
    (∀ pid, m.role = Role.assistant → m.parentId = some pid →
        chats.findIdx? (fun c => c.id == pid) = none →
        resendContext chats mid = some (chats.take (i + 1))) ∧
    (m.role = Role.assistant → m.parentId = none →
        resendContext chats mid = some (chats.take (i + 1))) := by
  have hilen : i < chats.length := by
    rcases List.getElem?_eq_some.mp hget with ⟨hi, _⟩
    exact hi
  have htake : ∀ k : Nat, k < chats.length → ¬ (chats.take (k + 1)).length = 0 := by
    intro k hk
    rw [List.length_take]
    omega
  have hne : chats ≠ [] := by
    intro hc
    rw [hc] at hilen
    simp at hilen
  refine ⟨?_, ?_, ?_, ?_⟩
  · intro hrole
    rcases hrole with hr | hr <;>
      simp [resendContext, hfind, hget, hr, htake i hilen, hne]
  · intro pid j p hr hp hfj hgj
    have hjlen : j < chats.length := by
      rcases List.getElem?_eq_some.mp hgj with ⟨hj, _⟩
      exact hj
    constructor
    · simp [resendContext, hfind, hget, hr, hp, hfj, htake j hjlen, hne]
    · rw [List.getLast?_eq_getElem?, List.length_take]
      have hmin : (j + 1) ⊓ chats.length = j + 1 := by omega
      rw [hmin]
      simpa [List.getElem?_take] using hgj
  · intro pid hr hp hfj
    simp [resendContext, hfind, hget, hr, hp, hfj, htake i hilen, hne]
  · intro hr hp
    simp [resendContext, hfind, hget, hr, hp, htake i hilen, hne]

/-- C2 witness: the amended statement evaluated on `[u1msg, a1msg]` — the
resolved-parent case keeps the parent `u1msg` as the last context element. -/
theorem resendContext_role_cases_witness :
    resendContext [u1msg, a1msg] "a1" = some ([u1msg, a1msg].take 1) ∧
    ([u1msg, a1msg].take 1).getLast? = some u1msg := by
  have h := (resendContext_role_cases [u1msg, a1msg] "a1" 1 a1msg (by decide) (by decide)).2.1
  exact h "u1" 0 u1msg rfl rfl (by decide) (by decide)

/-- C3: for every run of `generateMessage` and every incoming chunk sequence,
the sequence of `content` values dispatched for the generating message (the
`contentTrace` of the `onMessageHandle` loop, accumulation starting from the
empty `output`), read in dispatch order, is prefix-increasing: every earlier
dispatched value is a string prefix of every later one. -/
theorem generateMessage_dispatch_prefix_increasing (chunks : List (String × Bool)) :
    List.Pairwise (fun a b => ∃ t, a ++ t = b) (contentTrace "" chunks) :=
  contentTrace_pairwise chunks ""

/-- C5: once the cancellation signal has fired, no further content dispatch
occurs: chunks handled after the signal fired (the `post` part, all flagged
aborted) contribute nothing to the dispatched sequence, and the whole
`generateMessage` run produces exactly the store state of the run that never
saw them. -/
theorem no_dispatch_after_abort (pre post : List (String × Bool)) (s : ChatState)
    (aid : String) (err : Option String) (acc : String)
    (h : ∀ c ∈ post, c.2 = true) :
    contentTrace acc (pre ++ post) = contentTrace acc pre ∧
    generateMessage s aid ⟨pre ++ post, err⟩ = generateMessage s aid ⟨pre, err⟩ := by
  have key : ∀ a : String, contentTrace a (pre ++ post) = contentTrace a pre := by
    induction pre with
    | nil =>
      intro a
      simpa [contentTrace] using contentTrace_all_aborted post a h
    | cons c rest ih =>
      intro a
      have hstep : (c :: rest) ++ post = c :: (rest ++ post) := rfl
      rw [hstep]
      simp only [contentTrace]
      by_cases hc : c.2 = true
      · rw [if_pos hc, if_pos hc]
        exact ih (a ++ c.1)
      · rw [if_neg hc, if_neg hc]
        rw [ih (a ++ c.1)]
  refine ⟨key acc, ?_⟩
  simp only [generateMessage, generateMessageFinish]
  rw [key ""]

/-- C5 witness: a chunk arriving after the abort fired changes neither the
dispatch trace nor the final store. -/
theorem no_dispatch_after_abort_witness :
    contentTrace "" ([("Hel", false)] ++ [("lo", true)]) = contentTrace "" [("Hel", false)] ∧
    generateMessage activeState "a1" ⟨[("Hel", false)] ++ [("lo", true)], none⟩ =
      generateMessage activeState "a1" ⟨[("Hel", false)], none⟩ :=
  no_dispatch_after_abort [("Hel", false)] [("lo", true)] activeState "a1" none "" (by decide)

theorem contentTrace_getLastD (chunks : List (String × Bool)) :
    ∀ acc d, chunks ≠ [] → (∀ c ∈ chunks, c.2 = false) →
    (contentTrace acc chunks).getLastD d = accumulateOut acc chunks := by
  induction chunks with
  | nil => intro acc d hne _; exact absurd rfl hne
  | cons c rest ih =>
    intro acc d _ hflags
    have hc : c.2 = false := hflags c (by simp)
    simp only [contentTrace]
    rw [if_neg (by simp [hc])]
    cases rest with
    | nil => simp [contentTrace, accumulateOut]
    | cons c2 r2 =>
      rw [List.getLastD_cons]
      rw [ih (acc ++ c.1) (acc ++ c.1) (by simp) (fun x hx => hflags x (by simp [hx]))]
      rfl

/-- C4: when the stream signals a terminal error after zero or more chunks,
`generateMessage` writes the error descriptor onto the target assistant
message's `error` field, keeps the content already accumulated on that
message (the last dispatched value, or the original content when nothing was
dispatched; for a nonempty uncancelled chunk sequence this is exactly the
concatenation of the chunks, e.g. `"Hel"` after chunk `"Hel"`), clears the
generation session (`loadingId` and the cancellation handle), and leaves
every other message of the conversation untouched — the failure is
message-local, never conversation-wide. -/
theorem generateMessage_error_recorded (s : ChatState) (aid : String) (ev : StreamEvents)
    (e : String) (pre post : List ChatMessage) (am : ChatMessage)
    (hs : s.chats = pre ++ am :: post) (ham : am.id = aid)
    (hpre : ∀ m ∈ pre, m.id ≠ aid) (hpost : ∀ m ∈ post, m.id ≠ aid)
    (herr : ev.err = some e) :
    (generateMessage s aid ev).chats =
      pre ++ { am with content := (contentTrace "" ev.chunks).getLastD am.content, error := some e } :: post ∧
    (ev.chunks ≠ [] → (∀ c ∈ ev.chunks, c.2 = false) →
      (contentTrace "" ev.chunks).getLastD am.content = accumulateOut "" ev.chunks) ∧
    (generateMessage s aid ev).chatLoadingId = none ∧
    (generateMessage s aid ev).abortController = none := by
  obtain ⟨chunks, err⟩ := ev
  simp only at herr ⊢
  subst herr
  refine ⟨?_, ?_, rfl, rfl⟩
  · show messagesReducer (applyContentUpdates s.chats aid (contentTrace "" chunks))
        (.updateMessageError (some aid) e) = _
    rw [hs, applyContentUpdates_decomp (contentTrace "" chunks) pre post am aid ham hpre hpost,
      reducer_update_error_decomp pre post
        { am with content := (contentTrace "" chunks).getLastD am.content }
        aid e ham hpre hpost]
  · intro hchunks hflags
    exact contentTrace_getLastD chunks "" am.content hchunks hflags

/-- C4 witness: a transport error after chunk `"Hel"` on the active session —
the assistant message keeps `content = "Hel"` (the accumulated output), gains
the error descriptor, and the session is cleared. -/
theorem generateMessage_error_recorded_witness :
    (generateMessage activeState "a1" ⟨[("Hel", false)], some "boom"⟩).chats =
      [u1msg] ++ { a1load with content := (contentTrace "" [("Hel", false)]).getLastD a1load.content, error := some "boom" } :: [] ∧
    (contentTrace "" [("Hel", false)]).getLastD a1load.content = accumulateOut "" [("Hel", false)] ∧
    (generateMessage activeState "a1" ⟨[("Hel", false)], some "boom"⟩).chatLoadingId = none ∧
    (generateMessage activeState "a1" ⟨[("Hel", false)], some "boom"⟩).abortController = none :=
  have h := generateMessage_error_recorded activeState "a1" ⟨[("Hel", false)], some "boom"⟩
    "boom" [u1msg] [] a1load rfl rfl (by decide) (by decide) rfl
  ⟨h.1, h.2.1 (by decide) (by decide), h.2.2.1, h.2.2.2⟩

/-- C6: with a session active (handle `h`, `loadingId` pointing at the last
message, which still holds the loading sentinel), `stopGenerateMessage`
dispatches an update clearing that message's content to the empty string,
triggers (aborts) the cancellation handle, and clears `loadingId` and the
handle; with no session active the call leaves the store unchanged. -/
theorem stopGenerateMessage_spec (s : ChatState) (lm : ChatMessage) (h : Nat) :
    (s.chats.getLast? = some lm → lm.content = LOADING_FLAT → s.chatLoadingId = some lm.id →
      s.abortController = some h →
        (stopGenerateMessage s).chats.getLast? = some { lm with content := "" } ∧
        (stopGenerateMessage s).abortedHandles = s.abortedHandles ++ [h] ∧
        (stopGenerateMessage s).chatLoadingId = none ∧
        (stopGenerateMessage s).abortController = none) ∧
    (s.abortController = none → s.chatLoadingId = none → stopGenerateMessage s = s) := by
  constructor
  · intro hlast hcontent hload habort
    have h1 : stopGenerateMessage s =
        toggleChatLoading
          { dispatchMessage s (.updateMessageContent s.chatLoadingId "") with
              abortedHandles := s.abortedHandles ++ [h] }
          false none := by
      simp only [stopGenerateMessage, hlast]
      rw [if_pos hcontent]
      have hac : (dispatchMessage s (.updateMessageContent s.chatLoadingId "")).abortController
          = some h := habort
      rw [hac]
      rfl
    rw [h1]
    refine ⟨?_, rfl, rfl, rfl⟩
    show (messagesReducer s.chats (.updateMessageContent s.chatLoadingId "")).getLast? = _
    rw [hload]
    simp only [messagesReducer]
    rw [List.getLast?_map, hlast]
    simp
  · intro habort hload
    have hdm : dispatchMessage s (.updateMessageContent s.chatLoadingId "") = s := by
      rw [hload]
      show { s with chats := messagesReducer s.chats (.updateMessageContent none "") } = s
      rw [reducer_update_content_none]
    simp only [stopGenerateMessage, hdm, ite_self]
    cases hg : s.chats.getLast? <;> simp [habort]

/-- C6 witness: stopping the active session on `activeState` (whose last
message holds the sentinel) clears the content, aborts handle 0 and clears the
session; stopping the idle `baseState` is a no-op. -/
theorem stopGenerateMessage_spec_witness :
    ((stopGenerateMessage activeState).chats.getLast? = some { a1load with content := "" } ∧
     (stopGenerateMessage activeState).abortedHandles = activeState.abortedHandles ++ [0] ∧
     (stopGenerateMessage activeState).chatLoadingId = none ∧
     (stopGenerateMessage activeState).abortController = none) ∧
    stopGenerateMessage baseState = baseState :=
  ⟨(stopGenerateMessage_spec activeState a1load 0).1 rfl rfl rfl rfl,
   (stopGenerateMessage_spec baseState a1load 0).2 rfl rfl⟩

theorem extra_update_id (tid : Option String) (k v : String) (m : ChatMessage) :
    (if tid = some m.id then { m with extra := upsertExtra m.extra k v } else m).id = m.id := by
  split <;> rfl

theorem ids_map_preserved (l : List ChatMessage) (f : ChatMessage → ChatMessage)
    (hf : ∀ m, (f m).id = m.id) :
    (l.map f).map (fun m => m.id) = l.map (fun m => m.id) := by
  rw [List.map_map]
  exact List.map_congr_left (fun m _ => hf m)

theorem ids_realFetchStart (s : ChatState) (messages : List ChatMessage) (uid : String)
    (hg : s.genMessageId = none) :
    ((realFetchAIResponseStart s messages uid).1).chats.map (fun m => m.id) =
      s.chats.map (fun m => m.id) ++ [nanoid s.nextNano] := by
  obtain ⟨chats, lid, ac, nh, ah, nn, g, mdl⟩ := s
  simp only at hg
  subst hg
  show ((chats ++ [({ id := nanoid nn, role := Role.assistant, content := LOADING_FLAT, parentId := some uid, error := none, extra := [] } : ChatMessage)]).map
      (fun m : ChatMessage => if some (nanoid nn) = some m.id then { m with extra := upsertExtra m.extra "fromModel" mdl } else m)).map (fun m => m.id)
      = chats.map (fun m => m.id) ++ [nanoid nn]
  rw [List.map_append, List.map_append,
    ids_map_preserved chats _ (fun m => extra_update_id _ _ _ m)]
  congr 1
  simp [upsertExtra]

theorem not_mem_ids_delete (chats : List ChatMessage) (tid : String) :
    tid ∉ (messagesReducer chats (.deleteMessage tid)).map (fun m => m.id) := by
  intro hmem
  obtain ⟨m, hm, hid⟩ := List.mem_map.mp hmem
  simp only [messagesReducer] at hm
  rw [List.mem_filter] at hm
  have hne := hm.2
  simp only [bne_iff_ne, ne_eq] at hne
  exact hne hid

/-- C7: the regenerate action on a message holding an error descriptor deletes
that message from the conversation before the retry generation starts — in
the store state at generation start (and so in every later state, the
placeholder id being fresh) the errored id is gone, so the regenerated reply
replaces rather than coexists with it; a non-errored original survives
regeneration. -/
theorem regenerate_deletes_errored_only (s : ChatState) (messageId : String)
    (hg : s.genMessageId = none) (hfresh : nanoid s.nextNano ≠ messageId) :
    (∀ tm, s.chats.find? (fun c => c.id == messageId) = some tm → tm.error.isSome = true →
        messageId ∉ (regenerateStart s messageId).chats.map (fun m => m.id)) ∧
    (∀ tm, s.chats.find? (fun c => c.id == messageId) = some tm → tm.error = none →
        messageId ∈ (regenerateStart s messageId).chats.map (fun m => m.id)) := by
  constructor
  · intro tm hfind herr
    simp only [regenerateStart, hfind, herr]
    cases hplan : resendPlan s.chats messageId with
    | none =>
      simp only [hplan, if_pos]
      exact not_mem_ids_delete s.chats messageId
    | some plan =>
      simp only [hplan, if_pos]
      rw [ids_realFetchStart (dispatchMessage s (.deleteMessage messageId)) plan.1 plan.2 hg]
      intro hmem
      rcases List.mem_append.mp hmem with hmem | hmem
      · exact not_mem_ids_delete s.chats messageId hmem
      · simp only [List.mem_singleton] at hmem
        exact hfresh hmem.symm
  · intro tm hfind herr
    have htm : tm.id = messageId := by simpa using List.find?_some hfind
    have hmem0 : messageId ∈ s.chats.map (fun m => m.id) :=
      htm ▸ List.mem_map_of_mem (fun m => m.id) (List.mem_of_find?_eq_some hfind)
    simp only [regenerateStart, hfind, herr]
    cases hplan : resendPlan s.chats messageId with
    | none =>
      simp only [hplan, Option.isSome_none, Bool.false_eq_true, if_false]
      exact hmem0
    | some plan =>
      simp only [hplan, Option.isSome_none, Bool.false_eq_true, if_false]
      rw [ids_realFetchStart s plan.1 plan.2 hg]
      exact List.mem_append_left _ hmem0

/-- C7 witness: regenerating the errored reply of `erroredState` removes id
`a1` from the conversation at generation start; regenerating the healthy
reply of `healthyState` keeps it. -/
theorem regenerate_deletes_errored_only_witness :
    "a1" ∉ (regenerateStart erroredState "a1").chats.map (fun m => m.id) ∧
    "a1" ∈ (regenerateStart healthyState "a1").chats.map (fun m => m.id) :=
  ⟨(regenerate_deletes_errored_only erroredState "a1" rfl (by decide)).1 a1errmsg (by decide) rfl,
   (regenerate_deletes_errored_only healthyState "a1" rfl (by decide)).2 a1msg (by decide) rfl⟩

/-- C8: `sendMessage` with empty text is a no-op (both at generation start and
after the stream is drained); with non-empty text on an empty conversation,
at the moment generation starts the conversation holds exactly the user
message (fresh `nanoid` id) followed by the assistant placeholder (loading
sentinel content, `parentId` = the user id, tagged with the model), and
`loadingId` is the placeholder's id (default id generator configured). -/
theorem sendMessage_appends_user_and_placeholder (s : ChatState) (text : String)
    (ev : StreamEvents) :
    (sendMessageStart s "" = s ∧ sendMessage s "" ev = s) ∧
    (text ≠ "" → s.chats = [] → s.genMessageId = none →
      (sendMessageStart s text).chats =
        [{ id := nanoid s.nextNano, role := Role.user, content := text, parentId := none, error := none, extra := [] },
         { id := nanoid (s.nextNano + 1), role := Role.assistant, content := LOADING_FLAT, parentId := some (nanoid s.nextNano), error := none, extra := [("fromModel", s.model)] }] ∧
      (sendMessageStart s text).chatLoadingId = some (nanoid (s.nextNano + 1))) := by
  constructor
  · constructor
    · simp [sendMessageStart, sendMessageCore]
    · simp [sendMessage, sendMessageCore]
  · intro h hc hg
    obtain ⟨chats, lid, ac, nh, ah, nn, g, mdl⟩ := s
    simp only at hc hg ⊢
    subst hc
    subst hg
    have hne2 : nanoid (nn + 1) ≠ nanoid nn := nanoid_ne (by omega)
    constructor
    · simp [sendMessageStart, sendMessageCore, realFetchAIResponseStart, getMessageId,
        dispatchMessage, messagesReducer, generateMessageStart, toggleChatLoading,
        currentChats, upsertExtra, h, hne2]
    · simp [sendMessageStart, sendMessageCore, realFetchAIResponseStart, getMessageId,
        dispatchMessage, messagesReducer, generateMessageStart, toggleChatLoading,
        currentChats, h]

/-- C8 witness: `sendMessage("")` is a no-op on `baseState`; `sendMessage("hello")`
on the empty `baseState` yields exactly the user message and the loading
placeholder, with `loadingId` the placeholder id. -/
theorem sendMessage_appends_user_and_placeholder_witness :
    sendMessageStart baseState "" = baseState ∧
    (sendMessageStart baseState "hello").chats =
      [{ id := nanoid 0, role := Role.user, content := "hello", parentId := none, error := none, extra := [] },
       { id := nanoid 1, role := Role.assistant, content := LOADING_FLAT, parentId := some (nanoid 0), error := none, extra := [("fromModel", "gpt-3.5-turbo")] }] ∧
    (sendMessageStart baseState "hello").chatLoadingId = some (nanoid 1) := by
  refine ⟨?_, ?_⟩
  · exact (sendMessage_appends_user_and_placeholder baseState "" ⟨[], none⟩).1.1
  · exact (sendMessage_appends_user_and_placeholder baseState "hello" ⟨[], none⟩).2
      (by decide) rfl rfl

/-- C9: the template-substitution step of context preprocessing touches
`user`-role messages only: any message of another role passes through
unchanged (same position); a `user` message whose template evaluation throws
(`compiler` answers `none`) falls back to its original unmodified form; a
successful evaluation replaces only the content; and the step is total — the
list shape is preserved, so the generation call always proceeds with a full
context and the send never fails because of a template error. -/
theorem compilerMessages_user_only_with_fallback (compiler : String → Option String)
    (msgs : List ChatMessage) (i : Nat) (m : ChatMessage) (hm : msgs[i]? = some m) :
    (m.role ≠ Role.user → (compilerMessages compiler msgs)[i]? = some m) ∧
    (compiler m.content = none → (compilerMessages compiler msgs)[i]? = some m) ∧
    (∀ c, m.role = Role.user → compiler m.content = some c →
        (compilerMessages compiler msgs)[i]? = some { m with content := c }) ∧
    (compilerMessages compiler msgs).length = msgs.length := by
  refine ⟨?_, ?_, ?_, ?_⟩
  · intro hr
    simp [compilerMessages, List.getElem?_map, hm, hr]
  · intro hcomp
    by_cases hr : m.role = Role.user
    · simp [compilerMessages, List.getElem?_map, hm, hr, hcomp]
    · simp [compilerMessages, List.getElem?_map, hm, hr]
  · intro c hr hcomp
    simp [compilerMessages, List.getElem?_map, hm, hr, hcomp]
  · simp [compilerMessages]

/-- C9 witness: a failing template leaves both the user and the assistant
message unchanged (and the full list length); a succeeding template rewrites
only the user message's content. -/
theorem compilerMessages_user_only_with_fallback_witness :
    (compilerMessages (fun _ => none) [u1msg, a1msg])[1]? = some a1msg ∧
    (compilerMessages (fun _ => none) [u1msg, a1msg])[0]? = some u1msg ∧
    (compilerMessages (fun t => some (t ++ "!")) [u1msg, a1msg])[0]? =
      some { u1msg with content := u1msg.content ++ "!" } ∧
    (compilerMessages (fun _ => none) [u1msg, a1msg]).length = 2 := by
  refine ⟨?_, ?_, ?_, ?_⟩
  · exact (compilerMessages_user_only_with_fallback (fun _ => none) [u1msg, a1msg] 1 a1msg
      rfl).1 (by decide)
  · exact (compilerMessages_user_only_with_fallback (fun _ => none) [u1msg, a1msg] 0 u1msg
      rfl).2.1 rfl
  · exact (compilerMessages_user_only_with_fallback (fun t => some (t ++ "!")) [u1msg, a1msg]
      0 u1msg rfl).2.2.1 (u1msg.content ++ "!") rfl rfl
  · simpa using (compilerMessages_user_only_with_fallback (fun _ => none) [u1msg, a1msg]
      0 u1msg rfl).2.2.2

theorem ids_realFetchStart_override (s : ChatState) (messages : List ChatMessage)
    (uid : String) (g : List ChatMessage → String → String)
    (hg : s.genMessageId = some g) :
    ((realFetchAIResponseStart s messages uid).1).chats.map (fun m => m.id) =
      s.chats.map (fun m => m.id) ++ [g messages uid] := by
  obtain ⟨chats, lid, ac, nh, ah, nn, go, mdl⟩ := s
  simp only at hg
  subst hg
  show ((chats ++ [({ id := g messages uid, role := Role.assistant, content := LOADING_FLAT, parentId := some uid, error := none, extra := [] } : ChatMessage)]).map
      (fun m : ChatMessage => if some (g messages uid) = some m.id then { m with extra := upsertExtra m.extra "fromModel" mdl } else m)).map (fun m => m.id)
      = chats.map (fun m => m.id) ++ [g messages uid]
  rw [List.map_append, List.map_append,
    ids_map_preserved chats _ (fun m => extra_update_id _ _ _ m)]
  congr 1
  simp [upsertExtra]

/-- C10: the id-generation override is consulted only for the assistant
placeholder: whatever override `g` is configured, the user message appended by
`sendMessage` carries the built-in `nanoid` id, while the placeholder id comes
from `g` when configured and from `nanoid` otherwise. -/
theorem message_id_provenance (s : ChatState) (text : String)
    (g : List ChatMessage → String → String) (h : text ≠ "") (hc : s.chats = []) :
    (s.genMessageId = some g →
      (sendMessageStart s text).chats.map (fun m => m.id) =
        [nanoid s.nextNano,
         g [{ id := nanoid s.nextNano, role := Role.user, content := text, parentId := none, error := none, extra := [] }] (nanoid s.nextNano)]) ∧
    (s.genMessageId = none →
      (sendMessageStart s text).chats.map (fun m => m.id) =
        [nanoid s.nextNano, nanoid (s.nextNano + 1)]) := by
  have hsend : sendMessageStart s text = (realFetchAIResponseStart
      (dispatchMessage { s with nextNano := s.nextNano + 1 }
        (.addMessage (nanoid s.nextNano) Role.user text none))
      (currentChats (dispatchMessage { s with nextNano := s.nextNano + 1 }
        (.addMessage (nanoid s.nextNano) Role.user text none)))
      (nanoid s.nextNano)).1 := by
    simp only [sendMessageStart, sendMessageCore]
    rw [if_neg h]
  constructor
  · intro hg
    rw [hsend, ids_realFetchStart_override
      (dispatchMessage { s with nextNano := s.nextNano + 1 }
        (.addMessage (nanoid s.nextNano) Role.user text none))
      (currentChats (dispatchMessage { s with nextNano := s.nextNano + 1 }
        (.addMessage (nanoid s.nextNano) Role.user text none)))
      (nanoid s.nextNano) g hg]
    simp [dispatchMessage, messagesReducer, currentChats, hc]
  · intro hg
    rw [hsend, ids_realFetchStart
      (dispatchMessage { s with nextNano := s.nextNano + 1 }
        (.addMessage (nanoid s.nextNano) Role.user text none))
      (currentChats (dispatchMessage { s with nextNano := s.nextNano + 1 }
        (.addMessage (nanoid s.nextNano) Role.user text none)))
      (nanoid s.nextNano) hg]
    simp [dispatchMessage, messagesReducer, currentChats, hc]

/-- C10 witness: with the override configured the placeholder id is
`"custom-id"` while the user id is still `nanoid`; with the default generator
both come from `nanoid`. -/
theorem message_id_provenance_witness :
    (sendMessageStart overrideState "hello").chats.map (fun m => m.id) =
      [nanoid 0, "custom-id"] ∧
    (sendMessageStart baseState "hello").chats.map (fun m => m.id) =
      [nanoid 0, nanoid 1] := by
  refine ⟨?_, ?_⟩
  · exact (message_id_provenance overrideState "hello" (fun _ _ => "custom-id")
      (by decide) rfl).1 rfl
  · exact (message_id_provenance baseState "hello" (fun _ _ => "custom-id")
      (by decide) rfl).2 rfl
